import Mathlib

/-!
Verification development for the checkpoint / component-orchestration layer of the
repository (files `algorithm.py` and `metrics.py`).

The Python code is shallowly embedded: ordered dictionaries become association lists
(`List (String × _)`, which preserves Python's insertion order), tensors of parameters
become opaque `Int` values keyed by their parameter names, learning rates become `ℚ`,
and every fallible operation returns `Except CkpError _` where the constructors record
which concrete Python exception would have been raised.
-/

set_option autoImplicit false

/-- Errors that the embedded operations can raise.  Each constructor corresponds to a
concrete Python exception site in the source (or the abstract error name the
documentation gives it). -/
inductive CkpError where
  /-- `torch.load` on a path that does not exist (`FileNotFoundError`);
  the documentation calls this `CheckpointNotFoundError`. -/
  | checkpointNotFound
  /-- `KeyError` on `states[load_item]` or on a live bundle lookup such as
  `self.optim_lst[item_name]`; the documentation calls this `CheckpointItemMissingError`. -/
  | checkpointItemMissing
  /-- Strict `load_state_dict` with missing or unexpected keys (`RuntimeError`). -/
  | loadMismatch
  /-- `list(state_dict.keys())[0]` on an empty state dict (`IndexError`). -/
  | indexError
  /-- A persisted object of the wrong shape for the target bundle entry. -/
  | typeMismatch
  /-- Python `NameError`: local variable `new_lr` referenced before assignment. -/
  | nameError
  /-- `KeyError` on `params_lst[optim_item]`. -/
  | keyError
  /-- `assert name in crit_lst` failed (`AssertionError`); the documentation calls this
  `UnsupportedComponentError`. -/
  | unsupportedComponent
  /-- Python `TypeError`: unexpected keyword argument passed to a constructor. -/
  | typeError
deriving DecidableEq

/-- Test whether the first list is an initial segment of the second
(character-level helper for Python's `in` on strings). -/
def startsWithL : List Char → List Char → Bool
  | [], _ => true
  | _ :: _, [] => false
  | a :: as, b :: bs => a == b && startsWithL as bs

/-- Test whether the first list occurs contiguously inside the second. -/
def occursIn (pat : List Char) : List Char → Bool
  | [] => startsWithL pat []
  | c :: rest => startsWithL pat (c :: rest) || occursIn pat rest

/-- Python's `pat in s` on strings: substring containment. -/
def strIn (pat s : String) : Bool := occursIn pat.toList s.toList

/-- Python's slicing `s[n:]`. -/
def strDrop (s : String) (n : Nat) : String := String.mk (s.toList.drop n)

/-- Lookup in a Python dict modelled as an association list (`d[key]` returns
`none` where Python raises `KeyError`). -/
def lookupL {α : Type} : List (String × α) → String → Option α
  | [], _ => none
  | (k, v) :: rest, key => if k = key then some v else lookupL rest key

/-- Replace the value stored at an existing key, keeping insertion order (this models
in-place mutation of the object stored in a Python dict). -/
def setL {α : Type} : List (String × α) → String → α → List (String × α)
  | [], _, _ => []
  | (k, v) :: rest, key, w => if k = key then (k, w) :: rest else (k, v) :: setL rest key w

/-- A `state_dict`: an ordered mapping from parameter name to (opaque) parameter value. -/
abbrev StateDict := List (String × Int)

/-- The keys of a state dict, in order (`list(state_dict.keys())`). -/
def keysOfSD (sd : StateDict) : List String := sd.map Prod.fst

/-- `a ⊆ b` on key lists, by membership. -/
def subsetKeys (a b : List String) : Bool := a.all fun k => b.contains k

/-- Strict `module.load_state_dict(sd)`: fails when the saved keys and the live module's
keys differ (missing or unexpected keys); on success every live parameter takes the
saved value for its key, the module's own key order being preserved. -/
def load_state_dict (m sd : StateDict) : Except CkpError StateDict :=
  if subsetKeys (keysOfSD m) (keysOfSD sd) && subsetKeys (keysOfSD sd) (keysOfSD m) then
    Except.ok (m.map fun e => (e.1, (lookupL sd e.1).getD e.2))
  else
    Except.error CkpError.loadMismatch

/-- A learning-rate scheduler, reduced to the piece of state the claims are about:
its internal step counter (`_step_count`/`last_epoch`).  `step` advances it by one. -/
structure Scheduler where
  step_count : Int
deriving DecidableEq

/-- `scheduler.step()`. -/
def Scheduler.step (s : Scheduler) : Scheduler := ⟨s.step_count + 1⟩

/-- `scheduler.state_dict()`: the persisted form of the scheduler, i.e. its counter. -/
def Scheduler.state_dict (s : Scheduler) : Int := s.step_count

/-- One value of the checkpoint record `states`: a module state dict, an optimizer
state, or a scheduler state. -/
inductive SavedItem where
  | mod (sd : StateDict)
  | opt (s : Int)
  | sch (s : Int)
deriving DecidableEq

/-- The persisted checkpoint record: `states = dict(iter=iter)` plus the
`module_*` / `optim_*` / `sched_*` entries. -/
structure States where
  iter : Int
  items : List (String × SavedItem)
deriving DecidableEq

/-- The orchestrator (`BaseAlg`), reduced to its owned bundles: `self.model.module_lst`
(each module represented by its state dict), `self.optim_lst` (each optimizer
represented by its opaque persisted state) and `self.sched_lst`. -/
structure BaseAlg where
  module_lst : List (String × StateDict)
  optim_lst : List (String × Int)
  sched_lst : List (String × Scheduler)
deriving DecidableEq

/-- The body of the `for load_item in load_item_lst` loop of `BaseAlg.load_state`:
fetch `states[load_item]`, dispatch on the substring `module_` / `optim_` / `sched_`,
remap the module keys from the first key's `module.` marker and `if_dist`, and load
into the owned bundle.  Every error site mirrors the Python exception at that line. -/
def load_one (alg : BaseAlg) (states : States) (load_item : String) (if_dist : Bool) :
    Except CkpError BaseAlg :=
  match lookupL states.items load_item with
  | none => Except.error CkpError.checkpointItemMissing
  | some item =>
    if strIn "module_" load_item then
      match item with
      | SavedItem.mod state_dict =>
        let item_name := strDrop load_item 7
        match keysOfSD state_dict with
        | [] => Except.error CkpError.indexError
        | k0 :: _ =>
          let renamed : StateDict :=
            if strIn "module." k0 && if_dist then
              state_dict.map fun e => (strDrop e.1 7, e.2)
            else if !strIn "module." k0 && if_dist then
              state_dict.map fun e => ("module." ++ e.1, e.2)
            else
              state_dict
          match lookupL alg.module_lst item_name with
          | none => Except.error CkpError.checkpointItemMissing
          | some m =>
            match load_state_dict m renamed with
            | Except.error e => Except.error e
            | Except.ok m2 =>
              Except.ok { alg with module_lst := setL alg.module_lst item_name m2 }
      | _ => Except.error CkpError.typeMismatch
    else if strIn "optim_" load_item then
      match lookupL alg.optim_lst (strDrop load_item 6) with
      | none => Except.error CkpError.checkpointItemMissing
      | some _ =>
        match item with
        | SavedItem.opt s =>
          Except.ok { alg with optim_lst := setL alg.optim_lst (strDrop load_item 6) s }
        | _ => Except.error CkpError.typeMismatch
    else if strIn "sched_" load_item then
      match lookupL alg.sched_lst (strDrop load_item 6) with
      | none => Except.error CkpError.checkpointItemMissing
      | some _ =>
        match item with
        | SavedItem.sch s =>
          Except.ok { alg with sched_lst := setL alg.sched_lst (strDrop load_item 6) ⟨s⟩ }
        | _ => Except.error CkpError.typeMismatch
    else
      Except.ok alg

/-- The whole `for load_item in load_item_lst` loop. -/
def load_items (alg : BaseAlg) (states : States) (if_dist : Bool) :
    List String → Except CkpError BaseAlg
  | [] => Except.ok alg
  | it :: rest =>
    match load_one alg states it if_dist with
    | Except.error e => Except.error e
    | Except.ok alg2 => load_items alg2 states if_dist rest

/-- `BaseAlg.load_state(ckp_load_path, load_item_lst, if_dist)`.  The file system is
passed in as `ckp`: `none` when the path does not exist (`torch.load` then raises),
otherwise the record found at the path.  On success returns the updated orchestrator
and `states['iter']`. -/
def load_state (alg : BaseAlg) (ckp : Option States) (load_item_lst : List String)
    (if_dist : Bool) : Except CkpError (BaseAlg × Int) :=
  match ckp with
  | none => Except.error CkpError.checkpointNotFound
  | some states =>
    match load_items alg states if_dist load_item_lst with
    | Except.error e => Except.error e
    | Except.ok alg2 => Except.ok (alg2, states.iter)

/-- `BaseAlg.save_state(ckp_save_path, iter, if_sched)`: build the persisted record
from the owned bundles (the file-system side of `torch.save` is modelled separately). -/
def save_state (alg : BaseAlg) (iter : Int) (if_sched : Bool) : States :=
  { iter := iter
    items :=
      (alg.module_lst.map fun e => ("module_" ++ e.1, SavedItem.mod e.2))
        ++ (alg.optim_lst.map fun e => ("optim_" ++ e.1, SavedItem.opt e.2))
        ++ (if if_sched then
              alg.sched_lst.map fun e => ("sched_" ++ e.1, SavedItem.sch e.2.state_dict)
            else []) }

/-- `BaseAlg.update_lr`: `for sched_item in self.sched_lst: self.sched_lst[sched_item].step()`. -/
def update_lr (alg : BaseAlg) : BaseAlg :=
  { alg with sched_lst := alg.sched_lst.map fun e => (e.1, e.2.step) }

/-- A file-system operation performed while persisting a checkpoint. -/
inductive FsOp where
  | write (path : String)
  | rename (src dst : String)
deriving DecidableEq

/-- The file-system operation trace of `BaseAlg.save_state`: `torch.save(states, path)`
serializes directly to the destination path — a single write, no temporary file, no
rename. -/
def save_state_ops (ckp_save_path : String) : List FsOp := [FsOp.write ckp_save_path]

/-- The file-system content effect of `torch.save(states, path)` on a store mapping
paths to records: the record is placed at `path`, replacing whatever was there. -/
def torch_save (fs : String → Option States) (path : String) (states : States) :
    String → Option States :=
  fun q => if q = path then some states else fs q

/-- Modelled from the spec: the atomic-write discipline the documentation requires of
the checkpoint codec — first write a temporary location, then rename/replace it onto
the destination path. -/
def atomic_write_ops (ops : List FsOp) (path : String) : Prop :=
  ∃ tmp, tmp ≠ path ∧ ops = [FsOp.write tmp, FsOp.rename tmp path]

/-- The options record of one optimizer (`opts_dict[optim_item]`): its `type` and its
`opts` bag, of which only the learning rate matters here (the other `opts` entries are
passed through untouched and are opaque to every claim). -/
structure OptimCfg where
  otype : String
  lr : ℚ
deriving DecidableEq

/-- `opts_dict.pop('TTUR')`: the two-time-scale-update-rule toggle and its base
learning rate.  Modelling note: in the source the `TTUR` entry sits inside the same
dict as the per-component entries and is popped before the loop; here it is the
separate argument `opts_ttur`, and `opts_dict` holds exactly the remaining
per-component entries the loop iterates over. -/
structure TTUROpts where
  if_ttur : Bool
  lr : ℚ
deriving DecidableEq

/-- A constructed optimizer: its type, its (opaque) parameter bundle, and the learning
rate its options carried at construction time. -/
structure Optimizer where
  otype : String
  params : Int
  lr : ℚ
deriving DecidableEq

/-- Modelled from the spec: `return_optimizer` lives in `deep_learning.py`, which is
not among the given sources; per the documentation an optimizer is built from
`(type, params, options including the learning rate)`, so the construction records
exactly those. -/
def return_optimizer (name : String) (params : Int) (lr : ℚ) : Optimizer :=
  { otype := name, params := params, lr := lr }

/-- The TTUR block at the top of the loop body of `BaseAlg.create_optimizer`:
when TTUR is on, rebind the local `new_lr` (for `gen` to `lr / 2`, for `dis` to
`lr * 2`) and write it into `opts_dict[optim_item]['opts']['lr']`; for any other
component name `new_lr` keeps its current binding, and reading it while it is still
unassigned (`none`) is a `NameError`.  Returns the new binding of `new_lr` together
with the learning rate the component's options now carry. -/
def ttur_step (if_ttur : Bool) (lr : ℚ) (new_lr : Option ℚ) (optim_item : String)
    (cfg : OptimCfg) : Except CkpError (Option ℚ × ℚ) :=
  if if_ttur then
    if optim_item = "gen" then Except.ok (some (lr / 2), lr / 2)
    else if optim_item = "dis" then Except.ok (some (lr * 2), lr * 2)
    else
      match new_lr with
      | none => Except.error CkpError.nameError
      | some v => Except.ok (some v, v)
  else Except.ok (new_lr, cfg.lr)

/-- The `for optim_item in opts_dict` loop of `BaseAlg.create_optimizer`:
run the TTUR block, look the component up in `params_lst` (`KeyError` when absent),
construct the optimizer, and append it to `self.optim_lst`. -/
def create_optimizer_go (params_lst : List (String × Int)) (if_ttur : Bool) (lr : ℚ)
    (new_lr : Option ℚ) (acc : List (String × Optimizer)) :
    List (String × OptimCfg) → Except CkpError (List (String × Optimizer))
  | [] => Except.ok acc
  | (optim_item, cfg) :: rest =>
    match ttur_step if_ttur lr new_lr optim_item cfg with
    | Except.error e => Except.error e
    | Except.ok (nl2, item_lr) =>
      match lookupL params_lst optim_item with
      | none => Except.error CkpError.keyError
      | some p =>
        create_optimizer_go params_lst if_ttur lr nl2
          (acc ++ [(optim_item, return_optimizer cfg.otype p item_lr)]) rest

/-- `BaseAlg.create_optimizer(params_lst, opts_dict)`: pop the TTUR options, then build
one optimizer per remaining component, returning the resulting `self.optim_lst`.
(When TTUR is off the popped record's `lr` is never read, matching the source where
the local `lr` is only bound when `if_ttur` holds.) -/
def create_optimizer (params_lst : List (String × Int)) (opts_ttur : TTUROpts)
    (opts_dict : List (String × OptimCfg)) : Except CkpError (List (String × Optimizer)) :=
  create_optimizer_go params_lst opts_ttur.if_ttur opts_ttur.lr none [] opts_dict

/-- The value of the Python local `new_lr` after the loop of `create_optimizer` has
processed the given component names, starting from the given binding: it is rebound
only at components named `gen` (to `lr / 2`) or `dis` (to `lr * 2`). -/
def new_lr_after (lr : ℚ) (nl : Option ℚ) : List String → Option ℚ
  | [] => nl
  | n :: rest =>
    new_lr_after lr
      (if n = "gen" then some (lr / 2) else if n = "dis" then some (lr * 2) else nl) rest

/-- The statically known criterion names (`crit_lst` in `metrics.py`). -/
def crit_lst : List String := ["PSNR", "LPIPS"]

/-- The keyword arguments a criterion constructor can receive (`**opts`).  Only the
`LPIPS` constructor accepts any; an unset field means the keyword is absent. -/
structure CritOpts where
  net : Option String := none
  if_spatial : Option Bool := none
  if_cuda : Option Bool := none
deriving DecidableEq

/-- A constructed criterion object: `PSNR()` or `LPIPS(net, if_spatial, if_cuda)`. -/
inductive CritFunc where
  | psnr
  | lpips (net : String) (if_spatial : Bool) (if_cuda : Bool)
deriving DecidableEq

/-- The `lsb` (lower-is-better) flag each criterion sets on itself:
`PSNR.lsb = False`, `LPIPS.lsb = True`. -/
def CritFunc.lsb : CritFunc → Bool
  | CritFunc.psnr => false
  | CritFunc.lpips _ _ _ => true

/-- `PSNR(**opts)` / `PSNR()`: the constructor takes no keyword arguments, so any
supplied keyword is a `TypeError`. -/
def psnr_ctor : Option CritOpts → Except CkpError CritFunc
  | none => Except.ok CritFunc.psnr
  | some ⟨none, none, none⟩ => Except.ok CritFunc.psnr
  | some _ => Except.error CkpError.typeError

/-- `LPIPS(**opts)` / `LPIPS()`: defaults `net='alex'`, `if_spatial=False`,
`if_cuda=True`. -/
def lpips_ctor : Option CritOpts → Except CkpError CritFunc
  | none => Except.ok (CritFunc.lpips "alex" false true)
  | some o =>
    Except.ok (CritFunc.lpips (o.net.getD "alex") (o.if_spatial.getD false) (o.if_cuda.getD true))

/-- `return_crit_func(name, opts)`: assert the name is known, resolve the class by
name, and construct it with `**opts` when options are given, parameterless otherwise. -/
def return_crit_func (name : String) (opts : Option CritOpts) : Except CkpError CritFunc :=
  if name ∈ crit_lst then
    if name = "PSNR" then psnr_ctor opts else lpips_ctor opts
  else Except.error CkpError.unsupportedComponent

/-- A `cv2`-loaded image: `np.uint8` values indexed height × width × channel, channel
order BGR. -/
structure Img where
  imH : Nat
  imW : Nat
  imC : Nat
  val : Nat → Nat → Nat → ℚ

/-- A pre-normalized floating tensor, indexed channel × height × width. -/
structure Tensor3 where
  tC : Nat
  tH : Nat
  tW : Nat
  val : Nat → Nat → Nat → ℚ

/-- A four-dimensional tensor, indexed batch × channel × height × width. -/
structure Tensor4 where
  tB : Nat
  tC : Nat
  tH : Nat
  tW : Nat
  val : Nat → Nat → Nat → Nat → ℚ

/-- One input to the LPIPS metric, the two representations the source distinguishes by
`dtype`: a `np.uint8` pixel array or a floating tensor. -/
inductive MetricInput where
  | im (i : Img)
  | tensor (t : Tensor3)

/-- The result of `LPIPS._preprocess`: a `(1, C, H, W)` tensor built from an image, or
an elementwise-rescaled tensor. -/
inductive PreOut where
  | t4 (t : Tensor4)
  | t3 (t : Tensor3)

/-- `LPIPS._preprocess(inp, mode)`.  For `mode='im'`: reverse the channel axis
(`[:, :, ::-1]`, BGR to RGB), map every value by `v / (255 / 2) - 1`, insert the batch
axis and transpose to `(1, C, RGB, H, W)` order — composed here into one indexed
tensor.  For `mode='tensor'`: `inp * 2 - 1` elementwise.  `out` starts as `None` and
is returned unchanged when no branch fires (a representation/mode mismatch makes the
downstream kernel fail and is likewise modelled as `none`). -/
def lpips_preprocess : MetricInput → String → Option PreOut
  | MetricInput.im i, mode =>
    if mode = "im" then
      some (PreOut.t4
        { tB := 1, tC := i.imC, tH := i.imH, tW := i.imW,
          val := fun _ c h w => i.val h w (i.imC - 1 - c) / (255 / 2) - 1 })
    else none
  | MetricInput.tensor t, mode =>
    if mode = "tensor" then
      some (PreOut.t3 { tC := t.tC, tH := t.tH, tW := t.tW,
                        val := fun c h w => t.val c h w * 2 - 1 })
    else none

/-- `LPIPS.forward(ref, im)`: choose the mode from `ref.dtype == np.uint8`, preprocess
both inputs with that mode, delegate to the LPIPS kernel (`self.lpips_fn`, an opaque
collaborator passed as `kernel`), and return its scalar (`.item()`) unmodified. -/
def lpips_forward (kernel : PreOut → PreOut → ℚ) (ref im : MetricInput) : Option ℚ :=
  let mode := match ref with
    | MetricInput.im _ => "im"
    | MetricInput.tensor _ => "tensor"
  match lpips_preprocess ref mode, lpips_preprocess im mode with
  | some r, some i => some (kernel r i)
  | _, _ => none

theorem ttur_step_gen (lr : ℚ) (nl : Option ℚ) (cfg : OptimCfg) :
    ttur_step true lr nl "gen" cfg = Except.ok (some (lr / 2), lr / 2) := rfl

theorem ttur_step_dis (lr : ℚ) (nl : Option ℚ) (cfg : OptimCfg) :
    ttur_step true lr nl "dis" cfg = Except.ok (some (lr * 2), lr * 2) := rfl

theorem ttur_step_other (lr : ℚ) (nl : Option ℚ) (item : String) (cfg : OptimCfg)
    (hg : item ≠ "gen") (hd : item ≠ "dis") :
    ttur_step true lr nl item cfg
      = match nl with
        | none => Except.error CkpError.nameError
        | some v => Except.ok (some v, v) := by
  simp [ttur_step, hg, hd]

theorem ttur_step_false (lr : ℚ) (nl : Option ℚ) (item : String) (cfg : OptimCfg) :
    ttur_step false lr nl item cfg = Except.ok (nl, cfg.lr) := rfl

theorem create_optimizer_go_ok_shape (params : List (String × Int)) (ift : Bool) (lr : ℚ) :
    ∀ (opts : List (String × OptimCfg)) (nl : Option ℚ) (acc res : List (String × Optimizer)),
      create_optimizer_go params ift lr nl acc opts = Except.ok res →
      ∃ tail, res = acc ++ tail ∧ tail.map Prod.fst = opts.map Prod.fst := by
  intro opts
  induction opts with
  | nil =>
    intro nl acc res h
    simp only [create_optimizer_go, Except.ok.injEq] at h
    exact ⟨[], by simp [h], rfl⟩
  | cons e rest ih =>
    obtain ⟨item, cfg⟩ := e
    intro nl acc res h
    simp only [create_optimizer_go] at h
    cases hstep : ttur_step ift lr nl item cfg with
    | error e0 => rw [hstep] at h; simp at h
    | ok pr =>
      obtain ⟨nl2, ilr⟩ := pr
      rw [hstep] at h
      cases hp : lookupL params item with
      | none => rw [hp] at h; simp at h
      | some p =>
        rw [hp] at h
        obtain ⟨tail, htail, hnames⟩ :=
          ih nl2 (acc ++ [(item, return_optimizer cfg.otype p ilr)]) res h
        exact ⟨(item, return_optimizer cfg.otype p ilr) :: tail,
          by simp [htail], by simp [hnames]⟩

theorem create_optimizer_go_gen_dis (params : List (String × Int)) (lr : ℚ) :
    ∀ (opts : List (String × OptimCfg)) (nl : Option ℚ) (acc res : List (String × Optimizer)),
      create_optimizer_go params true lr nl acc opts = Except.ok res →
      (∀ o, ("gen", o) ∈ acc → o.lr = lr / 2) →
      (∀ o, ("dis", o) ∈ acc → o.lr = lr * 2) →
      (∀ o, ("gen", o) ∈ res → o.lr = lr / 2) ∧ (∀ o, ("dis", o) ∈ res → o.lr = lr * 2) := by
  intro opts
  induction opts with
  | nil =>
    intro nl acc res h hg hd
    simp only [create_optimizer_go, Except.ok.injEq] at h
    subst h
    exact ⟨hg, hd⟩
  | cons e rest ih =>
    obtain ⟨item, cfg⟩ := e
    intro nl acc res h hg hd
    simp only [create_optimizer_go] at h
    by_cases hgen : item = "gen"
    · subst hgen
      rw [ttur_step_gen] at h
      cases hp : lookupL params "gen" with
      | none => rw [hp] at h; simp at h
      | some p =>
        rw [hp] at h
        refine ih _ _ _ h ?_ ?_
        · intro o ho
          rcases List.mem_append.mp ho with h1 | h2
          · exact hg o h1
          · obtain ⟨-, h3⟩ := Prod.mk.injEq .. ▸ (List.mem_singleton.mp h2)
            rw [h3, return_optimizer]
        · intro o ho
          rcases List.mem_append.mp ho with h1 | h2
          · exact hd o h1
          · exact absurd (congrArg Prod.fst (List.mem_singleton.mp h2)) (by simp)
    · by_cases hdis : item = "dis"
      · subst hdis
        rw [ttur_step_dis] at h
        cases hp : lookupL params "dis" with
        | none => rw [hp] at h; simp at h
        | some p =>
          rw [hp] at h
          refine ih _ _ _ h ?_ ?_
          · intro o ho
            rcases List.mem_append.mp ho with h1 | h2
            · exact hg o h1
            · exact absurd (congrArg Prod.fst (List.mem_singleton.mp h2)) (by simp)
          · intro o ho
            rcases List.mem_append.mp ho with h1 | h2
            · exact hd o h1
            · obtain ⟨-, h3⟩ := Prod.mk.injEq .. ▸ (List.mem_singleton.mp h2)
              rw [h3, return_optimizer]
      · rw [ttur_step_other _ _ _ _ hgen hdis] at h
        cases nl with
        | none => simp at h
        | some v =>
          cases hp : lookupL params item with
          | none => rw [hp] at h; simp at h
          | some p =>
            rw [hp] at h
            refine ih _ _ _ h ?_ ?_
            · intro o ho
              rcases List.mem_append.mp ho with h1 | h2
              · exact hg o h1
              · exact absurd (congrArg Prod.fst (List.mem_singleton.mp h2)).symm hgen
            · intro o ho
              rcases List.mem_append.mp ho with h1 | h2
              · exact hd o h1
              · exact absurd (congrArg Prod.fst (List.mem_singleton.mp h2)).symm hdis

theorem create_optimizer_go_false (params : List (String × Int)) (lr : ℚ) :
    ∀ (opts : List (String × OptimCfg)) (nl : Option ℚ) (acc res : List (String × Optimizer)),
      create_optimizer_go params false lr nl acc opts = Except.ok res →
      res = acc ++ opts.map fun e =>
        (e.1, return_optimizer e.2.otype ((lookupL params e.1).getD 0) e.2.lr) := by
  intro opts
  induction opts with
  | nil =>
    intro nl acc res h
    simp only [create_optimizer_go, Except.ok.injEq] at h
    simp [h]
  | cons e rest ih =>
    obtain ⟨item, cfg⟩ := e
    intro nl acc res h
    simp only [create_optimizer_go, ttur_step_false] at h
    cases hp : lookupL params item with
    | none => rw [hp] at h; simp at h
    | some p =>
      rw [hp] at h
      have := ih nl (acc ++ [(item, return_optimizer cfg.otype p cfg.lr)]) res h
      simp only [this, hp, List.append_assoc, List.map_cons, Option.getD_some,
        List.singleton_append]

theorem create_optimizer_go_stale (params : List (String × Int)) (lr : ℚ) :
    ∀ (l1 : List (String × OptimCfg)) (nl : Option ℚ) (acc : List (String × Optimizer))
      (name : String) (cfg : OptimCfg) (l2 : List (String × OptimCfg))
      (res : List (String × Optimizer)),
      create_optimizer_go params true lr nl acc (l1 ++ (name, cfg) :: l2) = Except.ok res →
      name ≠ "gen" → name ≠ "dis" →
      ∃ v p preOut postOut,
        new_lr_after lr nl (l1.map Prod.fst) = some v ∧
        lookupL params name = some p ∧
        res = acc ++ preOut ++ (name, return_optimizer cfg.otype p v) :: postOut ∧
        preOut.map Prod.fst = l1.map Prod.fst := by
  intro l1
  induction l1 with
  | nil =>
    intro nl acc name cfg l2 res h hg hd
    simp only [List.nil_append] at h
    simp only [create_optimizer_go] at h
    rw [ttur_step_other _ _ _ _ hg hd] at h
    cases nl with
    | none => simp at h
    | some v =>
      cases hp : lookupL params name with
      | none => rw [hp] at h; simp at h
      | some p =>
        rw [hp] at h
        obtain ⟨tail, htail, -⟩ := create_optimizer_go_ok_shape params true lr l2 _ _ res h
        refine ⟨v, p, [], tail, ?_, ?_, ?_, ?_⟩
        · rfl
        · rfl
        · simp [htail]
        · rfl
  | cons e l1' ih =>
    obtain ⟨q, qc⟩ := e
    intro nl acc name cfg l2 res h hg hd
    simp only [List.cons_append] at h
    simp only [create_optimizer_go] at h
    by_cases hqg : q = "gen"
    · subst hqg
      rw [ttur_step_gen] at h
      cases hp : lookupL params "gen" with
      | none => rw [hp] at h; simp at h
      | some p0 =>
        rw [hp] at h
        obtain ⟨v, p, preOut, postOut, h1, h2, h3, h4⟩ := ih _ _ name cfg l2 res h hg hd
        refine ⟨v, p, ("gen", return_optimizer qc.otype p0 (lr / 2)) :: preOut, postOut,
          ?_, h2, ?_, ?_⟩
        · simpa [new_lr_after] using h1
        · simp [h3]
        · simp [h4]
    · by_cases hqd : q = "dis"
      · subst hqd
        rw [ttur_step_dis] at h
        cases hp : lookupL params "dis" with
        | none => rw [hp] at h; simp at h
        | some p0 =>
          rw [hp] at h
          obtain ⟨v, p, preOut, postOut, h1, h2, h3, h4⟩ := ih _ _ name cfg l2 res h hg hd
          refine ⟨v, p, ("dis", return_optimizer qc.otype p0 (lr * 2)) :: preOut, postOut,
            ?_, h2, ?_, ?_⟩
          · simpa [new_lr_after] using h1
          · simp [h3]
          · simp [h4]
      · rw [ttur_step_other _ _ _ _ hqg hqd] at h
        cases nl with
        | none => simp at h
        | some v0 =>
          cases hp : lookupL params q with
          | none => rw [hp] at h; simp at h
          | some p0 =>
            rw [hp] at h
            obtain ⟨v, p, preOut, postOut, h1, h2, h3, h4⟩ := ih _ _ name cfg l2 res h hg hd
            refine ⟨v, p, (q, return_optimizer qc.otype p0 v0) :: preOut, postOut,
              ?_, h2, ?_, ?_⟩
            · simpa [new_lr_after, hqg, hqd] using h1
            · simp [h3]
            · simp [h4]

theorem load_items_append (states : States) (d : Bool) (l1 l2 : List String) :
    ∀ alg : BaseAlg,
      load_items alg states d (l1 ++ l2)
        = match load_items alg states d l1 with
          | Except.error e => Except.error e
          | Except.ok a2 => load_items a2 states d l2 := by
  induction l1 with
  | nil => intro alg; rfl
  | cons it rest ih =>
    intro alg
    simp only [List.cons_append, load_items]
    cases load_one alg states it d with
    | error e => rfl
    | ok a2 => exact ih a2

theorem load_one_ok_lookup (alg a2 : BaseAlg) (states : States) (it : String) (d : Bool)
    (h : load_one alg states it d = Except.ok a2) : lookupL states.items it ≠ none := by
  intro hn
  rw [load_one, hn] at h
  simp at h

theorem load_items_ok_lookup (states : States) (d : Bool) :
    ∀ (l : List String) (alg r : BaseAlg),
      load_items alg states d l = Except.ok r → ∀ it ∈ l, lookupL states.items it ≠ none := by
  intro l
  induction l with
  | nil => intro alg r h it hit; cases hit
  | cons x rest ih =>
    intro alg r h it hit
    simp only [load_items] at h
    cases hx : load_one alg states x d with
    | error e => rw [hx] at h; simp at h
    | ok a2 =>
      rw [hx] at h
      rcases List.mem_cons.mp hit with h1 | h2
      · subst h1; exact load_one_ok_lookup _ _ _ _ _ hx
      · exact ih a2 r h it h2

theorem sched_map_id (l : List (String × Scheduler)) :
    (l.map fun e => (e.1, (⟨e.2.step_count⟩ : Scheduler))) = l := by
  induction l with
  | nil => rfl
  | cons e rest ih =>
    obtain ⟨n, s⟩ := e
    obtain ⟨c⟩ := s
    simp [ih]

/-- C1: the claim states that when the first key of the saved module state carries the
"module." namespace token and `is_distributed = true`, the saved state is loaded into
the live module directly, with no renaming of any key.  The code does the opposite in
exactly that case: the branch gated on `('module.' in first_key) and if_dist` drops
the first seven characters of every key (`k[7:]`), so the strict load into a live
module whose keys are the saved keys fails with a key mismatch, while the direct,
rename-free load the claim describes (second conjunct) would have succeeded. -/
theorem load_state_dist_renames_despite_claim :
    load_state ⟨[("gen", [("module.w", 1)])], [], []⟩
        (some ⟨0, [("module_gen", SavedItem.mod [("module.w", 7)])]⟩)
        ["module_gen"] true = Except.error CkpError.loadMismatch ∧
    load_state_dict [("module.w", 1)] [("module.w", 7)] = Except.ok [("module.w", 7)] :=
  ⟨rfl, rfl⟩

/-- C2: the claim states that a saved state with "module."-marked keys loaded with
`is_distributed = false` has the token stripped from every key before loading.  In the
code the stripping branch requires `if_dist` to be true, so with `if_dist = false` the
prefixed state is passed to the strict load unchanged and the load fails against a
live module with unprefixed keys, while the stripped load the claim describes (second
conjunct) would have succeeded.  (The other half of the claim — unprefixed saved state
with `is_distributed = true` gains the token on every key — does hold in the code.) -/
theorem load_state_nondist_skips_strip :
    load_state ⟨[("gen", [("w", 1)])], [], []⟩
        (some ⟨0, [("module_gen", SavedItem.mod [("module.w", 7)])]⟩)
        ["module_gen"] false = Except.error CkpError.loadMismatch ∧
    load_state_dict [("w", 1)] [("w", 7)] = Except.ok [("w", 7)] :=
  ⟨rfl, rfl⟩

/-- C3: the claim states that `save_state` at iteration 9 followed by `load_state` of
every owned item under the matching distributed flag restores the orchestrator and
returns 9.  For a distributed orchestrator — whose module keys carry the "module."
token — the load strips that token from every key and the strict module load fails,
so the round trip errors instead of returning the saved state and iteration. -/
theorem save_then_load_dist_fails :
    load_state ⟨[("gen", [("module.w", 3)])], [("gen", 11)], [("gen", ⟨5⟩)]⟩
        (some (save_state ⟨[("gen", [("module.w", 3)])], [("gen", 11)], [("gen", ⟨5⟩)]⟩ 9 true))
        ["module_gen", "optim_gen", "sched_gen"] true
      = Except.error CkpError.loadMismatch :=
  rfl

/-- C5 counterexample: the claim states that `save_state` persists the record with an
atomic temporary-write-then-rename.  Its file-system trace is a single direct
`torch.save` write to the destination path, which is not of that form. -/
theorem save_state_no_temp_rename :
    ¬ atomic_write_ops (save_state_ops "ckp.pt") "ckp.pt" := by
  rintro ⟨tmp, -, h⟩
  simp [save_state_ops] at h

/-- C5 amended: `save_state` performs one direct `torch.save` write to the destination
path — no temporary file and no rename, so the write is not atomic against a crash
mid-save — and a completed save overwrites whatever record previously existed at the
path. -/
theorem save_state_direct_write (fs : String → Option States) (path : String)
    (alg : BaseAlg) (iter : Int) (if_sched : Bool) :
    save_state_ops path = [FsOp.write path] ∧
    torch_save fs path (save_state alg iter if_sched) path
      = some (save_state alg iter if_sched) := by
  exact ⟨rfl, by simp [torch_save]⟩

/-- C7: `return_crit_func` fails with the unsupported-component error for every name
outside the statically known list `crit_lst`, and for a known name with options absent
it succeeds with the class defaults, the constructed object's lower-is-better flag
being `false` for PSNR and `true` for LPIPS. -/
theorem return_crit_func_registry :
    (∀ (name : String) (opts : Option CritOpts), name ∉ crit_lst →
        return_crit_func name opts = Except.error CkpError.unsupportedComponent) ∧
    (return_crit_func "PSNR" none = Except.ok CritFunc.psnr ∧
      CritFunc.lsb CritFunc.psnr = false) ∧
    (return_crit_func "LPIPS" none = Except.ok (CritFunc.lpips "alex" false true) ∧
      CritFunc.lsb (CritFunc.lpips "alex" false true) = true) := by
  refine ⟨fun name opts h => ?_, ⟨rfl, rfl⟩, ⟨rfl, rfl⟩⟩
  rw [return_crit_func, if_neg h]

/-- Witness for C7 at the concrete inputs the documentation names. -/
theorem return_crit_func_registry_witness :
    return_crit_func "NotARealLoss" none = Except.error CkpError.unsupportedComponent :=
  return_crit_func_registry.1 "NotARealLoss" none (by decide)

/-- C8: `LPIPS.forward` detects the representation from the value type (`np.uint8`
pixel array versus floating tensor), normalizes each input before delegating — a pixel
array has its channel axis reversed from BGR to RGB order and every value mapped by
`v / (255 / 2) - 1`, i.e. `v / 127.5 - 1`, while a floating tensor is mapped by
`2 * v - 1` elementwise — and returns the kernel's scalar unmodified. -/
theorem lpips_forward_normalization (kernel : PreOut → PreOut → ℚ)
    (r i : Img) (tr ti : Tensor3) :
    lpips_forward kernel (MetricInput.im r) (MetricInput.im i)
      = some (kernel
          (PreOut.t4 ⟨1, r.imC, r.imH, r.imW,
            fun _ c h w => r.val h w (r.imC - 1 - c) / (255 / 2) - 1⟩)
          (PreOut.t4 ⟨1, i.imC, i.imH, i.imW,
            fun _ c h w => i.val h w (i.imC - 1 - c) / (255 / 2) - 1⟩)) ∧
    lpips_forward kernel (MetricInput.tensor tr) (MetricInput.tensor ti)
      = some (kernel
          (PreOut.t3 ⟨tr.tC, tr.tH, tr.tW, fun c h w => 2 * tr.val c h w - 1⟩)
          (PreOut.t3 ⟨ti.tC, ti.tH, ti.tW, fun c h w => 2 * ti.val c h w - 1⟩)) := by
  constructor
  · rfl
  · have hmap : ∀ t : Tensor3,
        (fun c h w => t.val c h w * 2 - 1) = fun c h w => 2 * t.val c h w - 1 := by
      intro t; funext c h w; ring
    simp [lpips_forward, lpips_preprocess, hmap]

/-- C9: `update_lr` steps every owned scheduler once, so `k` calls advance every
scheduler's internal counter by exactly `k` while touching nothing else; with no
schedulers the call is the identity (a no-op, raising nothing). -/
theorem update_lr_step_cardinality (alg : BaseAlg) (k : ℕ) :
    (update_lr^[k] alg).sched_lst
        = alg.sched_lst.map (fun e => (e.1, (⟨e.2.step_count + k⟩ : Scheduler))) ∧
    (update_lr^[k] alg).module_lst = alg.module_lst ∧
    (update_lr^[k] alg).optim_lst = alg.optim_lst ∧
    (alg.sched_lst = [] → update_lr^[k] alg = alg) := by
  induction k with
  | zero =>
    refine ⟨?_, rfl, rfl, fun _ => rfl⟩
    simp only [Function.iterate_zero_apply, Nat.cast_zero, add_zero]
    exact (sched_map_id alg.sched_lst).symm
  | succ k ih =>
    obtain ⟨ihs, ihm, iho, ihe⟩ := ih
    refine ⟨?_, ?_, ?_, ?_⟩
    · rw [Function.iterate_succ_apply', update_lr]
      simp only [ihs, List.map_map]
      apply List.map_congr_left
      intro e _
      simp only [Function.comp_apply, Scheduler.step, Prod.mk.injEq, Scheduler.mk.injEq,
        true_and]
      push_cast
      omega
    · rw [Function.iterate_succ_apply', update_lr]
      exact ihm
    · rw [Function.iterate_succ_apply', update_lr]
      exact iho
    · intro h
      rw [Function.iterate_succ_apply', ihe h]
      obtain ⟨m, o, s⟩ := alg
      simp only at h
      simp [update_lr, h]

/-- Witness for C9: three calls on an orchestrator without schedulers are a no-op, and
two calls on one scheduler with counter 0 leave its counter at 2. -/
theorem update_lr_step_cardinality_witness :
    update_lr^[3] (⟨[], [], []⟩ : BaseAlg) = ⟨[], [], []⟩ ∧
    (update_lr^[2] (⟨[], [], [("gen", ⟨0⟩)]⟩ : BaseAlg)).sched_lst = [("gen", ⟨2⟩)] := by
  constructor
  · exact (update_lr_step_cardinality ⟨[], [], []⟩ 3).2.2.2 rfl
  · rw [(update_lr_step_cardinality ⟨[], [], [("gen", ⟨0⟩)]⟩ 2).1]
    decide

/-- C4: with TTUR enabled and base rate `L`, every constructed optimizer for the
component named "gen" carries learning rate `L / 2` and every one for "dis" carries
`L * 2` — the rate is written into the options once, at build time, and is a fixed
field of the constructed optimizer thereafter (compare `update_lr_step_cardinality`,
which shows stepping never touches the optimizer bundle); with TTUR disabled every
optimizer carries exactly the rate its own options specify. -/
theorem create_optimizer_ttur_policy (params : List (String × Int)) (L : ℚ)
    (opts : List (String × OptimCfg)) :
    (∀ res, create_optimizer params ⟨true, L⟩ opts = Except.ok res →
        (∀ o, ("gen", o) ∈ res → o.lr = L / 2) ∧ (∀ o, ("dis", o) ∈ res → o.lr = L * 2)) ∧
    (∀ res, create_optimizer params ⟨false, L⟩ opts = Except.ok res →
        res = opts.map fun e =>
          (e.1, return_optimizer e.2.otype ((lookupL params e.1).getD 0) e.2.lr)) := by
  constructor
  · intro res h
    exact create_optimizer_go_gen_dis params L opts none [] res h (by simp) (by simp)
  · intro res h
    simpa using create_optimizer_go_false params L opts none [] res h

/-- Witness for C4 at base rate 8: the "gen" optimizer is built with rate 4 and the
"dis" optimizer with rate 16; with TTUR off both keep their configured rates 1 and 3. -/
theorem create_optimizer_ttur_policy_witness :
    (Optimizer.mk "Adam" 0 4).lr = (8 : ℚ) / 2 ∧
    (Optimizer.mk "Adam" 1 16).lr = (8 : ℚ) * 2 ∧
    ([("gen", Optimizer.mk "Adam" 0 1), ("dis", Optimizer.mk "Adam" 1 3)]
      = [("gen", (⟨"Adam", (1 : ℚ)⟩ : OptimCfg)), ("dis", ⟨"Adam", 3⟩)].map fun e =>
          (e.1, return_optimizer e.2.otype
            ((lookupL [("gen", (0 : ℤ)), ("dis", 1)] e.1).getD 0) e.2.lr)) := by
  have hon : create_optimizer [("gen", 0), ("dis", 1)] ⟨true, 8⟩
      [("gen", ⟨"Adam", 1⟩), ("dis", ⟨"Adam", 3⟩)]
      = Except.ok [("gen", ⟨"Adam", 0, 4⟩), ("dis", ⟨"Adam", 1, 16⟩)] := by
    simp [create_optimizer, create_optimizer_go, ttur_step, lookupL, return_optimizer]
    norm_num
  have hoff : create_optimizer [("gen", 0), ("dis", 1)] ⟨false, 8⟩
      [("gen", ⟨"Adam", 1⟩), ("dis", ⟨"Adam", 3⟩)]
      = Except.ok [("gen", ⟨"Adam", 0, 1⟩), ("dis", ⟨"Adam", 1, 3⟩)] := by
    simp [create_optimizer, create_optimizer_go, ttur_step, lookupL, return_optimizer]
  have h1 := (create_optimizer_ttur_policy [("gen", 0), ("dis", 1)] 8
      [("gen", ⟨"Adam", 1⟩), ("dis", ⟨"Adam", 3⟩)]).1 _ hon
  have h2 := (create_optimizer_ttur_policy [("gen", 0), ("dis", 1)] 8
      [("gen", ⟨"Adam", 1⟩), ("dis", ⟨"Adam", 3⟩)]).2 _ hoff
  exact ⟨h1.1 _ (by simp), h1.2 _ (by simp), h2⟩

/-- C10: with TTUR enabled, a component named neither "gen" nor "dis" reads the local
`new_lr` when its options are overridden; if no "gen" or "dis" came earlier in the
iteration — in particular when it is the first component — that read is an
undefined-variable error and construction fails, and otherwise the component silently
receives the rate most recently computed for a preceding "gen" or "dis" component
(`new_lr_after` is exactly the binding of that local after the preceding names). -/
theorem create_optimizer_stale_lr (params : List (String × Int)) (L : ℚ)
    (opts : List (String × OptimCfg)) :
    (∀ name cfg rest, opts = (name, cfg) :: rest → name ≠ "gen" → name ≠ "dis" →
        create_optimizer params ⟨true, L⟩ opts = Except.error CkpError.nameError) ∧
    (∀ res l1 name cfg l2, create_optimizer params ⟨true, L⟩ opts = Except.ok res →
        opts = l1 ++ (name, cfg) :: l2 → name ≠ "gen" → name ≠ "dis" →
        ∃ v p preOut postOut,
          new_lr_after L none (l1.map Prod.fst) = some v ∧
          lookupL params name = some p ∧
          res = preOut ++ (name, return_optimizer cfg.otype p v) :: postOut ∧
          preOut.map Prod.fst = l1.map Prod.fst) := by
  constructor
  · intro name cfg rest hopts hg hd
    subst hopts
    simp only [create_optimizer, create_optimizer_go]
    rw [ttur_step_other _ _ _ _ hg hd]
  · intro res l1 name cfg l2 h hopts hg hd
    subst hopts
    obtain ⟨v, p, preOut, postOut, h1, h2, h3, h4⟩ :=
      create_optimizer_go_stale params L l1 none [] name cfg l2 res h hg hd
    exact ⟨v, p, preOut, postOut, h1, h2, by simpa using h3, h4⟩

/-- Witness for C10: a lone component named "foo" makes construction fail with the
undefined-variable error, and a component "aux" iterated after "gen" under base rate 8
receives 4, the rate computed for "gen". -/
theorem create_optimizer_stale_lr_witness :
    create_optimizer [("foo", 0)] ⟨true, (8 : ℚ)⟩ [("foo", ⟨"Adam", 1⟩)]
        = Except.error CkpError.nameError ∧
    ∃ v p preOut postOut,
      new_lr_after 8 none ([("gen", (⟨"Adam", (1 : ℚ)⟩ : OptimCfg))].map Prod.fst) = some v ∧
      lookupL [("gen", (0 : ℤ)), ("aux", 1)] "aux" = some p ∧
      ([("gen", Optimizer.mk "Adam" 0 4), ("aux", Optimizer.mk "Adam" 1 4)]
        = preOut ++ ("aux", return_optimizer (OptimCfg.otype ⟨"Adam", 3⟩) p v) :: postOut) ∧
      preOut.map Prod.fst = [("gen", (⟨"Adam", (1 : ℚ)⟩ : OptimCfg))].map Prod.fst := by
  constructor
  · exact (create_optimizer_stale_lr [("foo", 0)] 8 [("foo", ⟨"Adam", 1⟩)]).1
      "foo" ⟨"Adam", 1⟩ [] rfl (by decide) (by decide)
  · have h0 : create_optimizer [("gen", 0), ("aux", 1)] ⟨true, 8⟩
        [("gen", ⟨"Adam", 1⟩), ("aux", ⟨"Adam", 3⟩)]
        = Except.ok [("gen", ⟨"Adam", 0, 4⟩), ("aux", ⟨"Adam", 1, 4⟩)] := by
      simp [create_optimizer, create_optimizer_go, ttur_step, lookupL, return_optimizer]
      norm_num
    exact (create_optimizer_stale_lr [("gen", 0), ("aux", 1)] 8
        [("gen", ⟨"Adam", 1⟩), ("aux", ⟨"Adam", 3⟩)]).2
      [("gen", ⟨"Adam", 0, 4⟩), ("aux", ⟨"Adam", 1, 4⟩)]
      [("gen", ⟨"Adam", 1⟩)] "aux" ⟨"Adam", 3⟩ [] h0 rfl (by decide) (by decide)

/-- C6: `load_state` fails with the checkpoint-not-found error whenever the path does
not exist (first conjunct); it never returns a success when any requested item is
absent from the persisted record (second conjunct); and when the first offending
requested item is absent from the persisted record, or present but absent from the
corresponding live bundle (module / optimizer / scheduler), the load fails with the
checkpoint-item-missing error rather than silently skipping it (remaining
conjuncts). -/
theorem load_state_error_conditions (alg : BaseAlg) (items : List String) (if_dist : Bool) :
    load_state alg none items if_dist = Except.error CkpError.checkpointNotFound ∧
    (∀ (states : States) (r : BaseAlg × Int),
        load_state alg (some states) items if_dist = Except.ok r →
        ∀ it ∈ items, lookupL states.items it ≠ none) ∧
    (∀ (states : States) (l1 : List String) (it : String) (l2 : List String) (a2 : BaseAlg),
        items = l1 ++ it :: l2 →
        load_items alg states if_dist l1 = Except.ok a2 →
        lookupL states.items it = none →
        load_state alg (some states) items if_dist
          = Except.error CkpError.checkpointItemMissing) ∧
    (∀ (states : States) (l1 : List String) (it : String) (l2 : List String) (a2 : BaseAlg)
        (sd : StateDict) (k0 : String) (ks : List String),
        items = l1 ++ it :: l2 →
        load_items alg states if_dist l1 = Except.ok a2 →
        lookupL states.items it = some (SavedItem.mod sd) →
        strIn "module_" it = true →
        keysOfSD sd = k0 :: ks →
        lookupL a2.module_lst (strDrop it 7) = none →
        load_state alg (some states) items if_dist
          = Except.error CkpError.checkpointItemMissing) ∧
    (∀ (states : States) (l1 : List String) (it : String) (l2 : List String) (a2 : BaseAlg)
        (item : SavedItem),
        items = l1 ++ it :: l2 →
        load_items alg states if_dist l1 = Except.ok a2 →
        lookupL states.items it = some item →
        strIn "module_" it = false →
        strIn "optim_" it = true →
        lookupL a2.optim_lst (strDrop it 6) = none →
        load_state alg (some states) items if_dist
          = Except.error CkpError.checkpointItemMissing) ∧
    (∀ (states : States) (l1 : List String) (it : String) (l2 : List String) (a2 : BaseAlg)
        (item : SavedItem),
        items = l1 ++ it :: l2 →
        load_items alg states if_dist l1 = Except.ok a2 →
        lookupL states.items it = some item →
        strIn "module_" it = false →
        strIn "optim_" it = false →
        strIn "sched_" it = true →
        lookupL a2.sched_lst (strDrop it 6) = none →
        load_state alg (some states) items if_dist
          = Except.error CkpError.checkpointItemMissing) := by
  refine ⟨rfl, ?_, ?_, ?_, ?_, ?_⟩
  · intro states r h it hit
    simp only [load_state] at h
    cases hl : load_items alg states if_dist items with
    | error e => rw [hl] at h; simp at h
    | ok a2 => exact load_items_ok_lookup states if_dist items alg a2 hl it hit
  · intro states l1 it l2 a2 hsplit hpre hmiss
    subst hsplit
    simp only [load_state, load_items_append, hpre, load_items, load_one, hmiss]
  · intro states l1 it l2 a2 sd k0 ks hsplit hpre hfound hstr hkeys hmod
    subst hsplit
    simp only [load_state, load_items_append, hpre, load_items, load_one, hfound, hstr,
      hkeys, hmod]
    simp
  · intro states l1 it l2 a2 item hsplit hpre hfound hstrm hstro hopt
    subst hsplit
    simp only [load_state, load_items_append, hpre, load_items, load_one, hfound, hstrm,
      hstro, hopt]
    simp
  · intro states l1 it l2 a2 item hsplit hpre hfound hstrm hstro hstrs hsch
    subst hsplit
    simp only [load_state, load_items_append, hpre, load_items, load_one, hfound, hstrm,
      hstro, hstrs, hsch]
    simp

/-- Witness for C6: a missing path, a requested item absent from the record, and a
requested item absent from each of the three live bundles all fail with the documented
errors, while a clean load implies the record held every requested item. -/
theorem load_state_error_conditions_witness :
    load_state ⟨[], [], []⟩ none ["module_gen"] true
      = Except.error CkpError.checkpointNotFound ∧
    lookupL [("optim_gen", SavedItem.opt 9)] "optim_gen" ≠ none ∧
    load_state ⟨[], [], []⟩ (some ⟨0, []⟩) ["nope"] true
      = Except.error CkpError.checkpointItemMissing ∧
    load_state ⟨[], [], []⟩ (some ⟨0, [("module_dis", SavedItem.mod [("w", 1)])]⟩)
        ["module_dis"] true = Except.error CkpError.checkpointItemMissing ∧
    load_state ⟨[], [], []⟩ (some ⟨0, [("optim_dis", SavedItem.opt 1)]⟩)
        ["optim_dis"] true = Except.error CkpError.checkpointItemMissing ∧
    load_state ⟨[], [], []⟩ (some ⟨0, [("sched_dis", SavedItem.sch 1)]⟩)
        ["sched_dis"] true = Except.error CkpError.checkpointItemMissing := by
  refine ⟨(load_state_error_conditions ⟨[], [], []⟩ ["module_gen"] true).1,
    ?_, ?_, ?_, ?_, ?_⟩
  · exact (load_state_error_conditions ⟨[], [("gen", 5)], []⟩ ["optim_gen"] true).2.1
      ⟨4, [("optim_gen", SavedItem.opt 9)]⟩ (⟨[], [("gen", 9)], []⟩, 4) rfl
      "optim_gen" (by simp)
  · exact (load_state_error_conditions ⟨[], [], []⟩ ["nope"] true).2.2.1
      ⟨0, []⟩ [] "nope" [] ⟨[], [], []⟩ rfl rfl rfl
  · exact (load_state_error_conditions ⟨[], [], []⟩ ["module_dis"] true).2.2.2.1
      ⟨0, [("module_dis", SavedItem.mod [("w", 1)])]⟩ [] "module_dis" [] ⟨[], [], []⟩
      [("w", 1)] "w" [] rfl rfl rfl rfl rfl rfl
  · exact (load_state_error_conditions ⟨[], [], []⟩ ["optim_dis"] true).2.2.2.2.1
      ⟨0, [("optim_dis", SavedItem.opt 1)]⟩ [] "optim_dis" [] ⟨[], [], []⟩
      (SavedItem.opt 1) rfl rfl rfl rfl rfl rfl
  · exact (load_state_error_conditions ⟨[], [], []⟩ ["sched_dis"] true).2.2.2.2.2
      ⟨0, [("sched_dis", SavedItem.sch 1)]⟩ [] "sched_dis" [] ⟨[], [], []⟩
      (SavedItem.sch 1) rfl rfl rfl rfl rfl rfl rfl
